import Mathlib

/-!
Verification development for the marine-map backend's metadata/GPS
extraction pipeline (`backend/services/image_processor.py`) and thumbnail
freshness cache (`backend/main.py`, `backend/main_db.py`).

Python floats are modelled symbolically: a value is either an exact finite
rational, NaN, +inf or -inf.  Finite arithmetic is modelled exactly (the
magnitudes arising from EXIF rationals do not overflow IEEE doubles).
Python dictionaries with optional keys are modelled as structures with
`Option` fields (`none` = key absent); for the GPS fields, which one
endpoint can set to JSON `null`, a three-valued `GpsField` distinguishes
absent, null and numeric values.
-/

namespace MarineMap

/-- Model of a Python float value: finite rational, NaN, or a signed
infinity. -/
inductive PFloat where
  | fin (q : ℚ)
  | nan
  | inf
  | ninf
deriving DecidableEq, Repr

/-- Model of Python `math.isnan`. -/
def PFloat.isnan : PFloat → Bool
  | .nan => true
  | _ => false

/-- Model of Python `math.isinf`. -/
def PFloat.isinf : PFloat → Bool
  | .inf => true
  | .ninf => true
  | _ => false

/-- Model of Python unary `-` on floats. -/
def PFloat.neg : PFloat → PFloat
  | .fin q => .fin (-q)
  | .nan => .nan
  | .inf => .ninf
  | .ninf => .inf

/-- Model of Python `+` on floats (NaN propagates; opposite infinities
give NaN; finite addition is exact in this model). -/
def PFloat.add : PFloat → PFloat → PFloat
  | .nan, _ => .nan
  | _, .nan => .nan
  | .inf, .ninf => .nan
  | .ninf, .inf => .nan
  | .inf, _ => .inf
  | _, .inf => .inf
  | .ninf, _ => .ninf
  | _, .ninf => .ninf
  | .fin a, .fin b => .fin (a + b)

/-- Model of Python `/` by a positive finite constant (the code divides
only by `60.0` and `3600.0`). -/
def PFloat.divc : PFloat → ℚ → PFloat
  | .fin a, c => .fin (a / c)
  | .nan, _ => .nan
  | .inf, _ => .inf
  | .ninf, _ => .ninf

/-- Model of Python `==` on floats (IEEE semantics: NaN is not equal to
anything, including itself). -/
def PFloat.floatEq : PFloat → PFloat → Bool
  | .nan, _ => false
  | _, .nan => false
  | .inf, .inf => true
  | .ninf, .ninf => true
  | .fin a, .fin b => a == b
  | _, _ => false

/-- Model of Python `<=` on floats (any comparison with NaN is false). -/
def PFloat.le : PFloat → PFloat → Bool
  | .nan, _ => false
  | _, .nan => false
  | .ninf, _ => true
  | _, .ninf => false
  | _, .inf => true
  | .inf, _ => false
  | .fin a, .fin b => a ≤ b

/-- Model of a PIL `IFDRational`: an explicit numerator/denominator pair,
the denominator possibly 0. -/
structure IFDRational where
  numerator : ℤ
  denominator : ℤ
deriving DecidableEq, Repr

/-- Value of one rational DMS component as computed by
`convert_to_degrees`: `numerator / denominator if denominator != 0 else 0`. -/
def ratValue (r : IFDRational) : ℚ :=
  if r.denominator ≠ 0 then (r.numerator : ℚ) / (r.denominator : ℚ) else 0

/-- Model of the value bound to a `GPSLatitude` / `GPSLongitude` EXIF tag:
a tuple of `IFDRational`s, a tuple of plain numbers (the `float(...)`
branch), or a value of some other shape (indexing / converting it raises
`TypeError` / `ValueError` / `AttributeError`, caught by
`convert_to_degrees`). -/
inductive GPSCoord where
  | rationalTuple (comps : List IFDRational)
  | floatTuple (comps : List PFloat)
  | malformed
deriving DecidableEq, Repr

/-- The DMS sum `degrees + (minutes / 60.0) + (seconds / 3600.0)` exactly
as written in `convert_to_degrees`. -/
def dmsSum (degrees minutes seconds : PFloat) : PFloat :=
  (degrees.add (minutes.divc 60)).add (seconds.divc 3600)

/-- Tail of `convert_to_degrees` after the three components have been
obtained: the NaN/infinity check on the components, the DMS sum, and the
NaN/infinity check on the result. -/
def finishConv (degrees minutes seconds : PFloat) : Option PFloat :=
  if degrees.isnan || degrees.isinf || minutes.isnan || minutes.isinf ||
      seconds.isnan || seconds.isinf then none
  else
    let result := dmsSum degrees minutes seconds
    if result.isnan || result.isinf then none
    else some result

/-- Model of `convert_to_degrees(value)`.  `none` input models a falsy
`value` (`gps_info.get` returned `None`); an empty tuple is falsy too.
A tuple with fewer than three components raises `IndexError`, caught by
the function's `except` clause, which returns `None`. -/
def convert_to_degrees : Option GPSCoord → Option PFloat
  | none => none
  | some (.rationalTuple comps) =>
    if comps.isEmpty then none
    else
      match comps[0]?, comps[1]?, comps[2]? with
      | some r0, some r1, some r2 =>
        finishConv (.fin (ratValue r0)) (.fin (ratValue r1)) (.fin (ratValue r2))
      | _, _, _ => none
  | some (.floatTuple comps) =>
    if comps.isEmpty then none
    else
      match comps[0]?, comps[1]?, comps[2]? with
      | some d, some m, some s => finishConv d m s
      | _, _, _ => none
  | some .malformed => none

/-- The resolved `gps_info` dictionary built by `extract_gps_from_exif`
from the `GPSInfo` EXIF block, restricted to the four keys the function
reads (`gps_info.get` on an absent key returns `None`, modelled `none`). -/
structure GPSInfo where
  GPSLatitude : Option GPSCoord
  GPSLongitude : Option GPSCoord
  GPSLatitudeRef : Option String
  GPSLongitudeRef : Option String
deriving DecidableEq, Repr

/-- Lines 36-50 of `extract_gps_from_exif`, after both components have
converted: hemisphere correction from the ref flags, the `(0.0, 0.0)`
sentinel rejection, and the coordinate range gate. -/
def hemisphereAndGate (latRef lonRef : Option String) (lat0 lon0 : PFloat) :
    Option (PFloat × PFloat) :=
  let lat := if latRef = some "S" then lat0.neg else lat0
  let lon := if lonRef = some "W" then lon0.neg else lon0
  if lat.floatEq (.fin 0) && lon.floatEq (.fin 0) then none
  else if !(PFloat.le (.fin (-90)) lat && PFloat.le lat (.fin 90) &&
      (PFloat.le (.fin (-180)) lon && PFloat.le lon (.fin 180))) then none
  else some (lat, lon)

/-- Lines 29-50 of `extract_gps_from_exif`: DMS conversion of both
components (`None` from either rejects the pair), then correction and
validation. -/
def extract_gps_core (g : GPSInfo) : Option (PFloat × PFloat) :=
  match convert_to_degrees g.GPSLatitude, convert_to_degrees g.GPSLongitude with
  | some lat0, some lon0 =>
    hemisphereAndGate g.GPSLatitudeRef g.GPSLongitudeRef lat0 lon0
  | _, _ => none

/-- Result of `PIL.Image.open` plus `_getexif()`: either a decoded image
(pixel size, resolved non-GPS EXIF tag/value pairs, and the resolved GPS
sub-dictionary) or an exception message.  `gpsInfo = none` models both an
absent/empty EXIF dictionary and an EXIF dictionary without a `GPSInfo`
block — in either case `extract_gps_from_exif` returns `None` before the
conversion step. -/
structure DecodedImage where
  width : ℕ
  height : ℕ
  exifTags : List (String × String)
  gpsInfo : Option GPSInfo
deriving DecidableEq, Repr

/-- Outcome of opening one image file at a path. -/
inductive ImageOpenResult where
  | ok (img : DecodedImage)
  | err (msg : String)
deriving DecidableEq, Repr

/-- Model of `extract_gps_from_exif(image_path)`: an open/parse failure is
caught by the surrounding `except` and yields `None`; an absent or empty
`gps_info` dictionary yields `None`; otherwise the conversion-and-gate
core runs. -/
def extract_gps_from_exif : ImageOpenResult → Option (PFloat × PFloat)
  | .err _ => none
  | .ok d =>
    match d.gpsInfo with
    | none => none
    | some g => extract_gps_core g

/-- A GPS field of a stored record: the key may be absent from the
dictionary, present with JSON `null`, or present with a numeric value. -/
inductive GpsField where
  | absent
  | null
  | val (x : PFloat)
deriving DecidableEq, Repr

/-- Model of the flat metadata dictionary produced by
`extract_image_metadata` (and later mutated by the PATCH endpoint).
`Option` fields use `none` for an absent key. -/
structure ImageRecord where
  filename : String
  path : String
  width : Option ℕ
  height : Option ℕ
  make : Option String
  model : Option String
  datetime : Option String
  datetimeoriginal : Option String
  latitude : GpsField
  longitude : GpsField
  manually_tagged : Option Bool
  error : Option String
deriving DecidableEq, Repr

/-- Split a character list at every occurrence of the separator `c`
(model of `str.split` on a single character; always returns at least one,
possibly empty, piece). -/
def splitChar (c : Char) : List Char → List (List Char)
  | [] => [[]]
  | x :: xs =>
    let rest := splitChar c xs
    if x = c then [] :: rest
    else
      match rest with
      | [] => [[x]]
      | piece :: pieces => (x :: piece) :: pieces

/-- Model of `os.path.basename` on POSIX paths: everything after the last
slash. -/
def basename (p : String) : String :=
  String.mk ((splitChar '/' p.data).getLastD p.data)

/-- Model of `str.lower` on one ASCII character. -/
def lowerChar (c : Char) : Char :=
  if 'A' ≤ c ∧ c ≤ 'Z' then Char.ofNat (c.toNat + 32) else c

/-- Model of Python `str.lower` (the extension strings compared by the
scan are ASCII). -/
def lowerStr (s : String) : String :=
  String.mk (s.data.map lowerChar)

/-- The degraded record built in the `except` clause of
`extract_image_metadata`: only `filename`, `path` and `error`. -/
def errorRecord (image_path msg : String) : ImageRecord :=
  { filename := basename image_path, path := image_path,
    width := none, height := none, make := none, model := none,
    datetime := none, datetimeoriginal := none,
    latitude := .absent, longitude := .absent,
    manually_tagged := none, error := some msg }

/-- One step of the EXIF tag loop in `extract_image_metadata`: a tag whose
resolved name is `Make`, `Model`, `DateTime` or `DateTimeOriginal` is
stored under its lower-cased name; every other tag is ignored. -/
def applyTag (r : ImageRecord) (tv : String × String) : ImageRecord :=
  if tv.1 = "Make" then { r with make := some tv.2 }
  else if tv.1 = "Model" then { r with model := some tv.2 }
  else if tv.1 = "DateTime" then { r with datetime := some tv.2 }
  else if tv.1 = "DateTimeOriginal" then { r with datetimeoriginal := some tv.2 }
  else r

/-- Model of `extract_image_metadata(image_path)`.  The Python function
opens the image twice (once itself, once inside `extract_gps_from_exif`);
opening is deterministic, so both see the same `ImageOpenResult`. -/
def extract_image_metadata (image_path : String) (img : ImageOpenResult) : ImageRecord :=
  match img with
  | .err msg => errorRecord image_path msg
  | .ok d =>
    let base : ImageRecord :=
      { filename := basename image_path, path := image_path,
        width := some d.width, height := some d.height,
        make := none, model := none, datetime := none, datetimeoriginal := none,
        latitude := .absent, longitude := .absent,
        manually_tagged := none, error := none }
    let withTags := d.exifTags.foldl applyTag base
    match extract_gps_from_exif (.ok d) with
    | some (lat, lon) => { withTags with latitude := .val lat, longitude := .val lon }
    | none => withTags

/-- Model of `pathlib.PurePath.suffix` applied to a file name: the part of
the name from its last dot, provided that dot is neither the first nor the
last character; otherwise the empty string. -/
def pathSuffix (name : String) : String :=
  let cs := name.data
  let n := cs.length
  match ((List.range n).filter (fun i => cs[i]? == some '.')).getLast? with
  | some i => if 0 < i ∧ i + 1 < n then String.mk (cs.drop i) else ""
  | none => ""

/-- The extension filter of `process_images_directory`:
`image_file.suffix.lower() in {".jpg", ".jpeg", ".png", ".heic"}`
(`suffix` is computed on the path's final component). -/
def hasImageExtension (p : String) : Bool :=
  let ext := lowerStr (pathSuffix (basename p))
  ext == ".jpg" || ext == ".jpeg" || ext == ".png" || ext == ".heic"

/-- Model of the scan loop of `process_images_directory`: `files` is the
directory's entries in enumeration order (`directory.iterdir()`), and
`openImg` gives the open/decode outcome of each path.  The JSON dump and
console statistics are I/O effects outside the model; the function's
value is the list of records it accumulates. -/
def process_images_directory : List String → (String → ImageOpenResult) → List ImageRecord
  | [], _ => []
  | f :: fs, openImg =>
    if hasImageExtension f
    then extract_image_metadata f (openImg f) :: process_images_directory fs openImg
    else process_images_directory fs openImg

/-- Filesystem state relevant to one `get_thumbnail` request: existence,
mtime and integrity of the cache artifact (`thumbCorrupt` marks bytes
that are not a complete JPEG rendition), and the two failure points of
`generate_thumbnail` on this original: `decodeOk` is whether
`Image.open`, the mode conversion and the resize succeed — everything
before `img.save` — and `encodeOk` is whether the JPEG encoder then
accepts the image (e.g. a mode-`"I"` 16-bit grayscale source survives
decode but fails in the encoder). -/
structure ThumbFS where
  originalExists : Bool
  originalMtime : ℚ
  thumbExists : Bool
  thumbMtime : ℚ
  thumbCorrupt : Bool
  decodeOk : Bool
  encodeOk : Bool
deriving DecidableEq, Repr

/-- Outcome of one `get_thumbnail` request. -/
inductive ThumbResult where
  | notFound
  | generationFailed
  | servedCached
  | servedFresh
deriving DecidableEq, Repr

/-- Model of the `get_thumbnail` route (identical in `main.py` and
`main_db.py`): 404 when the original is missing; reuse when the artifact
exists with mtime at least the original's (whatever bytes it holds);
otherwise regenerate.  Regeneration mirrors `generate_thumbnail`'s
failure points: a failure before `img.save` (decode, mode conversion,
resize) writes nothing; `img.save` itself opens the target with
`"w+b"` — creating or truncating it and refreshing its mtime — before
the JPEG encoder runs, so an encoder failure leaves a truncated, corrupt
artifact behind while the route still raises the 500; a success leaves a
complete artifact stamped with the current time `now`. -/
def get_thumbnail (fs : ThumbFS) (now : ℚ) : ThumbResult × ThumbFS :=
  if !fs.originalExists then (.notFound, fs)
  else
    let thumbnail_valid := fs.thumbExists && decide (fs.thumbMtime ≥ fs.originalMtime)
    if thumbnail_valid then (.servedCached, fs)
    else if fs.decodeOk then
      if fs.encodeOk then
        (.servedFresh,
          { fs with thumbExists := true, thumbMtime := now, thumbCorrupt := false })
      else
        (.generationFailed,
          { fs with thumbExists := true, thumbMtime := now, thumbCorrupt := true })
    else (.generationFailed, fs)

/-- Model of `round_aspect` inside PIL's `Image.thumbnail`: the better of
floor and ceiling under `key` (floor winning ties), but at least 1. -/
def round_aspect (number : ℚ) (key : ℤ → ℚ) : ℤ :=
  max (if key ⌊number⌋ ≤ key ⌈number⌉ then ⌊number⌋ else ⌈number⌉) 1

/-- Model of the size computation of PIL's `Image.thumbnail` (the external
library call on line 84 of `main.py`): a source fitting inside the bound
is kept; otherwise the image is scaled, aspect preserved, so that the
constraining dimension equals the bound and the other is rounded. -/
def thumbnail_fit (bx by' : ℤ) (width height : ℕ) : ℕ × ℕ :=
  if bx ≥ (width : ℤ) ∧ by' ≥ (height : ℤ) then (width, height)
  else
    let aspect : ℚ := (width : ℚ) / (height : ℚ)
    if (bx : ℚ) / (by' : ℚ) ≥ aspect then
      let x := round_aspect ((by' : ℚ) * aspect)
        (fun n => |aspect - (n : ℚ) / (by' : ℚ)|)
      (x.toNat, by'.toNat)
    else
      let y := round_aspect ((bx : ℚ) / aspect)
        (fun n => if n = 0 then 0 else |aspect - (bx : ℚ) / (n : ℚ)|)
      (bx.toNat, y.toNat)

/-- The output pixel size of `generate_thumbnail`, which calls
`img.thumbnail((400, 400), ...)`. -/
def generate_thumbnail_size (width height : ℕ) : ℕ × ℕ :=
  thumbnail_fit 400 400 width height

/-- The request body of the PATCH GPS endpoint, restricted to the two
keys it reads: `gps_data.get("latitude")` / `gps_data.get("longitude")`
(`none` = key absent, stored as `null`). -/
structure GpsPatch where
  latitude : Option PFloat
  longitude : Option PFloat
deriving DecidableEq, Repr

/-- How `update_image_gps` stores one supplied field: an absent key is
stored as `null`, anything else verbatim. -/
def toGpsField : Option PFloat → GpsField
  | none => .null
  | some x => .val x

/-- The mutation `update_image_gps` applies to the matching record:
overwrite `latitude` and `longitude` with whatever the request supplied
and set `manually_tagged` to `True`. -/
def applyGpsPatch (r : ImageRecord) (g : GpsPatch) : ImageRecord :=
  { r with latitude := toGpsField g.latitude,
           longitude := toGpsField g.longitude,
           manually_tagged := some true }

/-- Model of the `update_image_gps` route: the first record whose
`filename` matches is patched in place and the list saved; no match is a
404 (`none`). -/
def update_image_gps : List ImageRecord → String → GpsPatch → Option (List ImageRecord)
  | [], _, _ => none
  | r :: rs, fn, g =>
    if r.filename = fn then some (applyGpsPatch r g :: rs)
    else (update_image_gps rs fn g).map (fun ms => r :: ms)

/-! ## Helper lemmas -/

/-- A float that is neither NaN nor infinite is a finite rational. -/
lemma PFloat.fin_of_not_special {x : PFloat} (h1 : x.isnan = false)
    (h2 : x.isinf = false) : ∃ q, x = .fin q := by
  cases x <;> simp_all [PFloat.isnan, PFloat.isinf]

/-- The EXIF tag loop never touches the GPS fields of the record. -/
lemma foldl_applyTag_gps (tags : List (String × String)) (r : ImageRecord) :
    (tags.foldl applyTag r).latitude = r.latitude ∧
      (tags.foldl applyTag r).longitude = r.longitude := by
  induction tags generalizing r with
  | nil => exact ⟨rfl, rfl⟩
  | cons t ts ih =>
    have ht : (applyTag r t).latitude = r.latitude ∧
        (applyTag r t).longitude = r.longitude := by
      unfold applyTag; split_ifs <;> exact ⟨rfl, rfl⟩
    have hi := ih (applyTag r t)
    exact ⟨by rw [List.foldl_cons, hi.1, ht.1],
      by rw [List.foldl_cons, hi.2, ht.2]⟩

/-! ## C5: decode failure degrades to an error-only record -/

/-- C5: metadata extraction never throws past its boundary: a decode or
parse failure produces a record holding only `filename`, `path` and
`error`; width/height, camera tags and GPS fields are all absent (not
null). -/
theorem c5_error_only_record (p msg : String) :
    extract_image_metadata p (.err msg) =
      { filename := basename p, path := p,
        width := none, height := none, make := none, model := none,
        datetime := none, datetimeoriginal := none,
        latitude := GpsField.absent, longitude := GpsField.absent,
        manually_tagged := none, error := some msg } := rfl

/-! ## C3: zero denominators become 0 and never raise -/

/-- C3: for every rational DMS tuple with a zero denominator in any
component, `convert_to_degrees` substitutes 0 for that component and
still returns a value (no exception escapes). -/
theorem c3_zero_denominator_is_zero (r0 r1 r2 : IFDRational)
    (_h : r0.denominator = 0 ∨ r1.denominator = 0 ∨ r2.denominator = 0) :
    convert_to_degrees (some (.rationalTuple [r0, r1, r2])) =
      some (.fin (ratValue r0 + ratValue r1 / 60 + ratValue r2 / 3600)) ∧
    (r0.denominator = 0 → ratValue r0 = 0) ∧
    (r1.denominator = 0 → ratValue r1 = 0) ∧
    (r2.denominator = 0 → ratValue r2 = 0) := by
  refine ⟨?_, fun h0 => by simp [ratValue, h0],
    fun h0 => by simp [ratValue, h0], fun h0 => by simp [ratValue, h0]⟩
  simp [convert_to_degrees, finishConv, dmsSum, PFloat.divc, PFloat.add,
    PFloat.isnan, PFloat.isinf]

/-- Witness for C3: a pair with zero denominator in the degrees slot. -/
theorem c3_witness :
    convert_to_degrees (some (.rationalTuple [⟨5, 0⟩, ⟨30, 1⟩, ⟨0, 1⟩])) =
      some (.fin (ratValue ⟨5, 0⟩ + ratValue ⟨30, 1⟩ / 60 + ratValue ⟨0, 1⟩ / 3600)) ∧
    (IFDRational.denominator ⟨5, 0⟩ = 0 → ratValue ⟨5, 0⟩ = 0) ∧
    (IFDRational.denominator ⟨30, 1⟩ = 0 → ratValue ⟨30, 1⟩ = 0) ∧
    (IFDRational.denominator ⟨0, 1⟩ = 0 → ratValue ⟨0, 1⟩ = 0) :=
  c3_zero_denominator_is_zero ⟨5, 0⟩ ⟨30, 1⟩ ⟨0, 1⟩ (Or.inl rfl)

/-! ## C8: batch directory processing -/

/-- C8: the batch scan visits exactly the files whose suffix is one of
`.jpg`, `.jpeg`, `.png`, `.heic` case-insensitively, in enumeration
order, producing one record per matching file; each record depends only
on its own file, and a file that fails to open yields a record carrying
the failure in its `error` field rather than aborting the scan. -/
theorem c8_batch_scan :
    (∀ (files : List String) (openImg : String → ImageOpenResult),
      process_images_directory files openImg =
        (files.filter hasImageExtension).map
          (fun f => extract_image_metadata f (openImg f))) ∧
    hasImageExtension "reef/A.JPG" = true ∧
    hasImageExtension "reef/b.HeIc" = true ∧
    hasImageExtension "reef/c.jpeg" = true ∧
    hasImageExtension "reef/d.png" = true ∧
    hasImageExtension "reef/e.gif" = false ∧
    hasImageExtension "reef/noext" = false ∧
    (∀ (p msg : String),
      (extract_image_metadata p (.err msg)).error = some msg) := by
  refine ⟨?_, by decide, by decide, by decide, by decide, by decide,
    by decide, fun p msg => rfl⟩
  intro files openImg
  induction files with
  | nil => rfl
  | cons f fs ih =>
    by_cases hf : hasImageExtension f
    · simp [process_images_directory, hf, ih]
    · simp [process_images_directory, hf, ih]

/-! ## C6: thumbnail freshness policy -/

/-- C6: a thumbnail request 404s when the original is missing; otherwise
the cached artifact is reused exactly when it exists with modification
time at least the original's, and in every other case regeneration is
attempted (serving a fresh artifact or failing). -/
theorem c6_thumbnail_freshness (fs : ThumbFS) (now : ℚ) :
    (fs.originalExists = false → (get_thumbnail fs now).1 = .notFound) ∧
    (fs.originalExists = true →
      (((get_thumbnail fs now).1 = .servedCached) ↔
        (fs.thumbExists = true ∧ fs.originalMtime ≤ fs.thumbMtime)) ∧
      (¬(fs.thumbExists = true ∧ fs.originalMtime ≤ fs.thumbMtime) →
        (get_thumbnail fs now).1 = .servedFresh ∨
          (get_thumbnail fs now).1 = .generationFailed)) := by
  unfold get_thumbnail
  constructor
  · intro h; simp [h]
  · intro h
    simp only [h, Bool.not_true, Bool.false_eq_true, if_false]
    by_cases ht : fs.thumbExists = true ∧ fs.originalMtime ≤ fs.thumbMtime
    · have hv : (fs.thumbExists && decide (fs.thumbMtime ≥ fs.originalMtime)) = true := by
        simp [ht.1, ge_iff_le, ht.2]
      simp [hv, ht]
    · have hv : (fs.thumbExists && decide (fs.thumbMtime ≥ fs.originalMtime)) = false := by
        by_cases hte : fs.thumbExists = true
        · have : ¬ fs.originalMtime ≤ fs.thumbMtime := fun hle => ht ⟨hte, hle⟩
          simp [hte, ge_iff_le, this]
        · simp [Bool.not_eq_true] at hte
          simp [hte]
      by_cases hd : fs.decodeOk = true
      · by_cases he : fs.encodeOk = true
        · simp [hv, hd, he, ht]
        · simp [Bool.not_eq_true] at he
          simp [hv, hd, he, ht]
      · simp [Bool.not_eq_true] at hd
        simp [hv, hd, ht]

/-- Witness for C6 at a concrete filesystem state with a stale artifact. -/
theorem c6_witness :
    (((get_thumbnail ⟨true, 7, true, 6, false, true, true⟩ 10).1 = .servedCached) ↔
      (true = true ∧ (7 : ℚ) ≤ 6)) ∧
    (¬(true = true ∧ (7 : ℚ) ≤ 6) →
      (get_thumbnail ⟨true, 7, true, 6, false, true, true⟩ 10).1 = .servedFresh ∨
        (get_thumbnail ⟨true, 7, true, 6, false, true, true⟩ 10).1 =
          .generationFailed) :=
  (c6_thumbnail_freshness ⟨true, 7, true, 6, false, true, true⟩ 10).2 rfl

/-! ## C7: what a generation failure leaves behind -/

/-- A stale artifact next to an original that decodes but is rejected by
the JPEG encoder (e.g. a mode-`"I"` 16-bit grayscale image, which the
`'RGBA', 'LA', 'P'` conversion branch does not touch). -/
def staleEncodeFailFS : ThumbFS := ⟨true, 7, true, 6, false, true, false⟩

/-- Counterexample to C7 as stated: with a stale artifact present, an
encode failure persists a truncated, corrupt artifact whose mtime is
fresh, and the next request serves those bytes as cached instead of
re-attempting generation. -/
theorem c7_counterexample :
    (get_thumbnail staleEncodeFailFS 10).1 = .generationFailed ∧
    (get_thumbnail staleEncodeFailFS 10).2.thumbExists = true ∧
    (get_thumbnail staleEncodeFailFS 10).2.thumbCorrupt = true ∧
    (get_thumbnail staleEncodeFailFS 10).2 ≠ staleEncodeFailFS ∧
    (get_thumbnail (get_thumbnail staleEncodeFailFS 10).2 11).1 =
      .servedCached ∧
    (get_thumbnail (get_thumbnail staleEncodeFailFS 10).2 11).2.thumbCorrupt =
      true := by
  decide

/-- C7 (amended): a failed generation raises the server-visible error and
records no poisoned/cached-failure marker; when the failure occurs before
`img.save` opens the target (decode, mode conversion, resize), nothing is
written and a subsequent request for the same original re-attempts
generation from scratch; but a failure inside the encoder leaves a
truncated, corrupt artifact with fresh modification time behind, because
`img.save` has already opened the target with `"w+b"`. -/
theorem c7_failure_paths (fs : ThumbFS) (now now2 : ℚ)
    (h1 : fs.originalExists = true)
    (h2 : ¬(fs.thumbExists = true ∧ fs.originalMtime ≤ fs.thumbMtime)) :
    (fs.decodeOk = false →
      (get_thumbnail fs now).1 = .generationFailed ∧
      (get_thumbnail fs now).2 = fs ∧
      (get_thumbnail (get_thumbnail fs now).2 now2).1 = .generationFailed) ∧
    (fs.decodeOk = true → fs.encodeOk = false →
      (get_thumbnail fs now).1 = .generationFailed ∧
      (get_thumbnail fs now).2.thumbExists = true ∧
      (get_thumbnail fs now).2.thumbCorrupt = true ∧
      (get_thumbnail fs now).2.thumbMtime = now) := by
  have hv : (fs.thumbExists && decide (fs.thumbMtime ≥ fs.originalMtime)) = false := by
    by_cases hte : fs.thumbExists = true
    · have : ¬ fs.originalMtime ≤ fs.thumbMtime := fun hle => h2 ⟨hte, hle⟩
      simp [hte, ge_iff_le, this]
    · simp [Bool.not_eq_true] at hte
      simp [hte]
  constructor
  · intro h3
    have hstep : get_thumbnail fs now = (.generationFailed, fs) := by
      unfold get_thumbnail
      simp [h1, hv, h3]
    refine ⟨by rw [hstep], by rw [hstep], ?_⟩
    rw [hstep]
    unfold get_thumbnail
    simp [h1, hv, h3]
  · intro h3 h4
    unfold get_thumbnail
    simp [h1, hv, h3, h4]

/-- An original without an artifact that fails at decode time. -/
def undecodableFS : ThumbFS := ⟨true, 7, false, 0, false, false, true⟩

/-- Witness for C7 (amended): a decode failure leaves the filesystem
unchanged and the next request retries; an encode failure leaves a
fresh-stamped corrupt artifact. -/
theorem c7_witness :
    ((get_thumbnail undecodableFS 10).1 = .generationFailed ∧
      (get_thumbnail undecodableFS 10).2 = undecodableFS ∧
      (get_thumbnail (get_thumbnail undecodableFS 10).2 11).1 =
        .generationFailed) ∧
    ((get_thumbnail staleEncodeFailFS 12).1 = .generationFailed ∧
      (get_thumbnail staleEncodeFailFS 12).2.thumbExists = true ∧
      (get_thumbnail staleEncodeFailFS 12).2.thumbCorrupt = true ∧
      (get_thumbnail staleEncodeFailFS 12).2.thumbMtime = 12) :=
  ⟨(c7_failure_paths undecodableFS 10 11 rfl (by simp [undecodableFS])).1 rfl,
    (c7_failure_paths staleEncodeFailFS 12 13 rfl (by decide)).2 rfl rfl⟩

/-- Inversion of the correction-and-gate step: an accepted pair was
negated exactly according to the ref flags, is not the `(0.0, 0.0)`
sentinel, and passed the range gate. -/
lemma hemisphereAndGate_some_inv {lr wr : Option String}
    {lat0 lon0 la lo : PFloat}
    (h : hemisphereAndGate lr wr lat0 lon0 = some (la, lo)) :
    la = (if lr = some "S" then lat0.neg else lat0) ∧
    lo = (if wr = some "W" then lon0.neg else lon0) ∧
    (la.floatEq (.fin 0) && lo.floatEq (.fin 0)) = false ∧
    PFloat.le (.fin (-90)) la = true ∧ PFloat.le la (.fin 90) = true ∧
    PFloat.le (.fin (-180)) lo = true ∧ PFloat.le lo (.fin 180) = true := by
  rw [hemisphereAndGate] at h
  set lat := if lr = some "S" then lat0.neg else lat0 with hlat
  set lon := if wr = some "W" then lon0.neg else lon0 with hlon
  split_ifs at h with hz hr
  rw [Option.some_inj, Prod.ext_iff] at h
  obtain ⟨h1, h2⟩ := h
  dsimp only at h1 h2
  subst h1; subst h2
  rw [Bool.not_eq_true] at hz
  rw [Bool.not_eq_true, Bool.not_eq_false'] at hr
  rw [Bool.and_eq_true, Bool.and_eq_true, Bool.and_eq_true] at hr
  exact ⟨hlat, hlon, hz, hr.1.1, hr.1.2, hr.2.1, hr.2.2⟩

/-- Inversion of the full conversion-and-gate core: an accepted pair
means both components converted, hemisphere correction was applied from
the ref flags alone, the pair is not the `(0.0, 0.0)` sentinel, and both
values passed the range gate. -/
lemma extract_gps_core_some_inv {g : GPSInfo} {la lo : PFloat}
    (h : extract_gps_core g = some (la, lo)) :
    ∃ la0 lo0, convert_to_degrees g.GPSLatitude = some la0 ∧
      convert_to_degrees g.GPSLongitude = some lo0 ∧
      la = (if g.GPSLatitudeRef = some "S" then la0.neg else la0) ∧
      lo = (if g.GPSLongitudeRef = some "W" then lo0.neg else lo0) ∧
      (la.floatEq (.fin 0) && lo.floatEq (.fin 0)) = false ∧
      PFloat.le (.fin (-90)) la = true ∧ PFloat.le la (.fin 90) = true ∧
      PFloat.le (.fin (-180)) lo = true ∧ PFloat.le lo (.fin 180) = true := by
  unfold extract_gps_core at h
  cases hlat : convert_to_degrees g.GPSLatitude with
  | none =>
    rw [hlat] at h
    cases convert_to_degrees g.GPSLongitude <;> simp at h
  | some la0 =>
    cases hlon : convert_to_degrees g.GPSLongitude with
    | none =>
      rw [hlat, hlon] at h
      simp at h
    | some lo0 =>
      rw [hlat, hlon] at h
      dsimp only at h
      obtain ⟨h1, h2, h3, h4, h5, h6, h7⟩ := hemisphereAndGate_some_inv h
      exact ⟨la0, lo0, rfl, rfl, h1, h2, h3, h4, h5, h6, h7⟩

/-! ## C2: hemisphere correction from the ref flag only -/

/-- C2: for every accepted coordinate pair, each component equals the
DMS-converted value negated exactly when the corresponding ref flag is
`"S"` (latitude) or `"W"` (longitude), and left unchanged otherwise; the
correction depends only on the ref flag and is applied exactly once
(never double-negated). -/
theorem c2_hemisphere_correction (g : GPSInfo) (la lo : PFloat)
    (h : extract_gps_core g = some (la, lo)) :
    ∃ la0 lo0, convert_to_degrees g.GPSLatitude = some la0 ∧
      convert_to_degrees g.GPSLongitude = some lo0 ∧
      la = (if g.GPSLatitudeRef = some "S" then la0.neg else la0) ∧
      lo = (if g.GPSLongitudeRef = some "W" then lo0.neg else lo0) ∧
      (g.GPSLatitudeRef = some "S" → la = la0.neg) ∧
      (g.GPSLatitudeRef ≠ some "S" → la = la0) ∧
      (g.GPSLongitudeRef = some "W" → lo = lo0.neg) ∧
      (g.GPSLongitudeRef ≠ some "W" → lo = lo0) := by
  obtain ⟨la0, lo0, h1, h2, h3, h4, _, _⟩ := extract_gps_core_some_inv h
  refine ⟨la0, lo0, h1, h2, h3, h4, ?_, ?_, ?_, ?_⟩ <;> intro hc
  · rw [h3, if_pos hc]
  · rw [h3, if_neg hc]
  · rw [h4, if_pos hc]
  · rw [h4, if_neg hc]

/-- Sample `gps_info` dictionary: south latitude 10°0'0", east longitude
20°0'0". -/
def southGps : GPSInfo :=
  ⟨some (.rationalTuple [⟨10, 1⟩, ⟨0, 1⟩, ⟨0, 1⟩]),
    some (.rationalTuple [⟨20, 1⟩, ⟨0, 1⟩, ⟨0, 1⟩]),
    some "S", some "E"⟩

/-- Witness for C2: ref `"S"` with converted decimal latitude 10.0 is
stored as -10.0. -/
theorem c2_witness :
    ∃ la0 lo0, convert_to_degrees southGps.GPSLatitude = some la0 ∧
      convert_to_degrees southGps.GPSLongitude = some lo0 ∧
      PFloat.fin (-10) = (if southGps.GPSLatitudeRef = some "S" then la0.neg else la0) ∧
      PFloat.fin 20 = (if southGps.GPSLongitudeRef = some "W" then lo0.neg else lo0) ∧
      (southGps.GPSLatitudeRef = some "S" → PFloat.fin (-10) = la0.neg) ∧
      (southGps.GPSLatitudeRef ≠ some "S" → PFloat.fin (-10) = la0) ∧
      (southGps.GPSLongitudeRef = some "W" → PFloat.fin 20 = lo0.neg) ∧
      (southGps.GPSLongitudeRef ≠ some "W" → PFloat.fin 20 = lo0) :=
  c2_hemisphere_correction southGps (.fin (-10)) (.fin 20) (by
    simp [southGps, extract_gps_core, convert_to_degrees, finishConv,
      dmsSum, ratValue, hemisphereAndGate, PFloat.add, PFloat.divc,
      PFloat.neg, PFloat.isnan, PFloat.isinf, PFloat.floatEq, PFloat.le]
    norm_num)

/-! ## C1: the validation gate is atomic -/

/-- C1: a record has either both GPS fields or neither (and extraction
never stores null); whenever both are present, both components converted
successfully, the hemisphere-corrected pair is not `(0.0, 0.0)`, the
latitude lies in [-90, 90] and the longitude in [-180, 180]. -/
theorem c1_validation_gate (image_path : String) (img : ImageOpenResult) :
    ((extract_image_metadata image_path img).latitude = GpsField.absent ↔
      (extract_image_metadata image_path img).longitude = GpsField.absent) ∧
    (extract_image_metadata image_path img).latitude ≠ GpsField.null ∧
    (extract_image_metadata image_path img).longitude ≠ GpsField.null ∧
    (∀ la lo, (extract_image_metadata image_path img).latitude = GpsField.val la →
      (extract_image_metadata image_path img).longitude = GpsField.val lo →
      ∃ d g la0 lo0, img = ImageOpenResult.ok d ∧ d.gpsInfo = some g ∧
        convert_to_degrees g.GPSLatitude = some la0 ∧
        convert_to_degrees g.GPSLongitude = some lo0 ∧
        la = (if g.GPSLatitudeRef = some "S" then la0.neg else la0) ∧
        lo = (if g.GPSLongitudeRef = some "W" then lo0.neg else lo0) ∧
        (la.floatEq (.fin 0) && lo.floatEq (.fin 0)) = false ∧
        PFloat.le (.fin (-90)) la = true ∧ PFloat.le la (.fin 90) = true ∧
        PFloat.le (.fin (-180)) lo = true ∧ PFloat.le lo (.fin 180) = true) := by
  cases img with
  | err msg =>
    refine ⟨by simp [extract_image_metadata, errorRecord], ?_, ?_, ?_⟩
    · simp [extract_image_metadata, errorRecord]
    · simp [extract_image_metadata, errorRecord]
    · intro la lo hla
      simp [extract_image_metadata, errorRecord] at hla
  | ok d =>
    rw [extract_image_metadata]
    cases hg : extract_gps_from_exif (.ok d) with
    | none =>
      dsimp only
      have hfold := foldl_applyTag_gps d.exifTags
        { filename := basename image_path, path := image_path,
          width := some d.width, height := some d.height,
          make := none, model := none, datetime := none,
          datetimeoriginal := none, latitude := .absent,
          longitude := .absent, manually_tagged := none, error := none }
      refine ⟨by rw [hfold.1, hfold.2], ?_, ?_, ?_⟩
      · rw [hfold.1]; simp
      · rw [hfold.2]; simp
      · intro la lo hla
        rw [hfold.1] at hla
        simp at hla
    | some p =>
      obtain ⟨lat, lon⟩ := p
      dsimp only
      refine ⟨by simp, by simp, by simp, ?_⟩
      intro la lo hla hlo
      simp only [GpsField.val.injEq] at hla hlo
      subst hla; subst hlo
      revert hg
      rw [extract_gps_from_exif]
      cases hgi : d.gpsInfo with
      | none => intro hg; exact absurd hg (by simp)
      | some g =>
        intro hg
        obtain ⟨la0, lo0, h1, h2, h3, h4, h5, h6, h7, h8, h9⟩ :=
          extract_gps_core_some_inv hg
        exact ⟨d, g, la0, lo0, rfl, hgi, h1, h2, h3, h4, h5, h6, h7, h8, h9⟩

/-- Sample decoded image with a valid north/east GPS block. -/
def northImage : DecodedImage :=
  ⟨640, 480, [("Make", "Canon")],
    some ⟨some (.rationalTuple [⟨10, 1⟩, ⟨0, 1⟩, ⟨0, 1⟩]),
      some (.rationalTuple [⟨20, 1⟩, ⟨0, 1⟩, ⟨0, 1⟩]),
      some "N", some "E"⟩⟩

/-- Witness for C1 at a concrete image whose record carries both GPS
fields. -/
theorem c1_witness :
    ∃ d g la0 lo0, ImageOpenResult.ok northImage = ImageOpenResult.ok d ∧
      d.gpsInfo = some g ∧
      convert_to_degrees g.GPSLatitude = some la0 ∧
      convert_to_degrees g.GPSLongitude = some lo0 ∧
      PFloat.fin 10 = (if g.GPSLatitudeRef = some "S" then la0.neg else la0) ∧
      PFloat.fin 20 = (if g.GPSLongitudeRef = some "W" then lo0.neg else lo0) ∧
      ((PFloat.fin 10).floatEq (.fin 0) && (PFloat.fin 20).floatEq (.fin 0)) = false ∧
      PFloat.le (.fin (-90)) (.fin 10) = true ∧
      PFloat.le (.fin 10) (.fin 90) = true ∧
      PFloat.le (.fin (-180)) (.fin 20) = true ∧
      PFloat.le (.fin 20) (.fin 180) = true :=
  (c1_validation_gate "reef/x.jpg" (.ok northImage)).2.2.2
    (.fin 10) (.fin 20)
    (by
      simp [northImage, extract_image_metadata, extract_gps_from_exif,
        extract_gps_core, convert_to_degrees, finishConv, dmsSum, ratValue,
        hemisphereAndGate, PFloat.add, PFloat.divc, PFloat.neg, PFloat.isnan,
        PFloat.isinf, PFloat.floatEq, PFloat.le, applyTag, basename,
        splitChar]
      norm_num)
    (by
      simp [northImage, extract_image_metadata, extract_gps_from_exif,
        extract_gps_core, convert_to_degrees, finishConv, dmsSum, ratValue,
        hemisphereAndGate, PFloat.add, PFloat.divc, PFloat.neg, PFloat.isnan,
        PFloat.isinf, PFloat.floatEq, PFloat.le, applyTag, basename,
        splitChar]
      norm_num)

/-! ## C4: NaN/infinity rejection -/

/-- Sample decoded image whose GPS latitude carries a NaN minutes
component. -/
def nanImage : DecodedImage :=
  ⟨640, 480, [],
    some ⟨some (.floatTuple [.fin 1, .nan, .fin 0]),
      some (.rationalTuple [⟨20, 1⟩, ⟨0, 1⟩, ⟨0, 1⟩]),
      some "N", some "E"⟩⟩

/-- C4: a DMS tuple whose components or final sum are NaN or infinite
converts to no value, and a component that fails to convert leaves both
GPS fields entirely absent from the output record. -/
theorem c4_nan_inf_rejected :
    (∀ d m s : PFloat,
      ((d.isnan || d.isinf || m.isnan || m.isinf || s.isnan || s.isinf) = true ∨
        ((dmsSum d m s).isnan || (dmsSum d m s).isinf) = true) →
      convert_to_degrees (some (.floatTuple [d, m, s])) = none) ∧
    (∀ (p : String) (di : DecodedImage) (g : GPSInfo),
      di.gpsInfo = some g →
      (convert_to_degrees g.GPSLatitude = none ∨
        convert_to_degrees g.GPSLongitude = none) →
      (extract_image_metadata p (.ok di)).latitude = GpsField.absent ∧
      (extract_image_metadata p (.ok di)).longitude = GpsField.absent) := by
  constructor
  · intro d m s h
    show finishConv d m s = none
    rw [finishConv]
    by_cases hc :
        (d.isnan || d.isinf || m.isnan || m.isinf || s.isnan || s.isinf) = true
    · rw [if_pos hc]
    · rcases h with h | h
      · exact absurd h hc
      · exfalso
        simp only [Bool.or_eq_true, not_or, Bool.not_eq_true] at hc
        obtain ⟨⟨⟨⟨⟨hd1, hd2⟩, hm1⟩, hm2⟩, hs1⟩, hs2⟩ := hc
        obtain ⟨qd, hd⟩ := PFloat.fin_of_not_special hd1 hd2
        obtain ⟨qm, hm⟩ := PFloat.fin_of_not_special hm1 hm2
        obtain ⟨qs, hs⟩ := PFloat.fin_of_not_special hs1 hs2
        subst hd; subst hm; subst hs
        simp [dmsSum, PFloat.add, PFloat.divc, PFloat.isnan, PFloat.isinf] at h
  · intro p di g hgi hconv
    have hgps : extract_gps_from_exif (.ok di) = none := by
      rw [extract_gps_from_exif, hgi]
      dsimp only
      unfold extract_gps_core
      rcases hconv with hc | hc
      · rw [hc]
      · rw [hc]
        cases convert_to_degrees g.GPSLatitude <;> rfl
    rw [extract_image_metadata]
    rw [hgps]
    have hfold := foldl_applyTag_gps di.exifTags
      { filename := basename p, path := p,
        width := some di.width, height := some di.height,
        make := none, model := none, datetime := none,
        datetimeoriginal := none, latitude := .absent,
        longitude := .absent, manually_tagged := none, error := none }
    exact ⟨hfold.1, hfold.2⟩

/-- Witness for C4: a NaN minutes component rejects the conversion and
keeps the whole pair out of the record. -/
theorem c4_witness :
    convert_to_degrees (some (.floatTuple [.fin 1, .nan, .fin 0])) = none ∧
    (extract_image_metadata "reef/n.jpg" (.ok nanImage)).latitude =
      GpsField.absent ∧
    (extract_image_metadata "reef/n.jpg" (.ok nanImage)).longitude =
      GpsField.absent :=
  ⟨c4_nan_inf_rejected.1 (.fin 1) .nan (.fin 0) (Or.inl (by decide)),
    c4_nan_inf_rejected.2 "reef/n.jpg" nanImage
      ⟨some (.floatTuple [.fin 1, .nan, .fin 0]),
        some (.rationalTuple [⟨20, 1⟩, ⟨0, 1⟩, ⟨0, 1⟩]),
        some "N", some "E"⟩
      rfl (Or.inl (by decide))⟩

/-! ## C10: the manual GPS override bypasses the validation gate -/

/-- A stored record used to exercise the PATCH endpoint. -/
def storedRecord : ImageRecord :=
  { filename := "a.jpg", path := "fishes/a.jpg",
    width := some 640, height := some 480,
    make := none, model := none, datetime := none, datetimeoriginal := none,
    latitude := .val (.fin 16), longitude := .val (.fin 108),
    manually_tagged := none, error := none }

/-- C10: the PATCH GPS endpoint updates the first matching record by
storing the supplied values verbatim — an absent value becomes `null`,
out-of-range values and the `(0, 0)` sentinel are stored as given — and
always sets `manually_tagged`; hence the data-model range bounds and the
no-null rule are not preserved by every operation that writes records. -/
theorem c10_patch_bypasses_gate :
    (∀ (pre post : List ImageRecord) (r : ImageRecord) (fn : String)
        (g : GpsPatch),
      (∀ r' ∈ pre, r'.filename ≠ fn) → r.filename = fn →
      update_image_gps (pre ++ r :: post) fn g =
        some (pre ++ applyGpsPatch r g :: post)) ∧
    (∀ (r : ImageRecord) (g : GpsPatch),
      (applyGpsPatch r g).latitude = toGpsField g.latitude ∧
      (applyGpsPatch r g).longitude = toGpsField g.longitude ∧
      (applyGpsPatch r g).manually_tagged = some true ∧
      (g.latitude = none → (applyGpsPatch r g).latitude = GpsField.null) ∧
      (g.longitude = none → (applyGpsPatch r g).longitude = GpsField.null)) ∧
    (∀ (r : ImageRecord) (x y : PFloat),
      (applyGpsPatch r ⟨some x, some y⟩).latitude = GpsField.val x ∧
      (applyGpsPatch r ⟨some x, some y⟩).longitude = GpsField.val y) ∧
    (∃ (r : ImageRecord) (g : GpsPatch) (q : ℚ),
      (applyGpsPatch r g).latitude = GpsField.val (.fin q) ∧
      ¬(-90 ≤ q ∧ q ≤ 90)) := by
  refine ⟨?_, ?_, ?_, ?_⟩
  · intro pre post r fn g hpre hr
    induction pre with
    | nil =>
      rw [List.nil_append, List.nil_append, update_image_gps, if_pos hr]
    | cons p ps ih =>
      have hp : ¬ p.filename = fn := hpre p (List.mem_cons_self p ps)
      have hps : ∀ r' ∈ ps, r'.filename ≠ fn :=
        fun r' hm => hpre r' (List.mem_cons_of_mem p hm)
      rw [List.cons_append, update_image_gps, if_neg hp, ih hps]
      rfl
  · intro r g
    refine ⟨rfl, rfl, rfl, ?_, ?_⟩ <;> intro hn <;> rw [applyGpsPatch]
    · rw [hn]; rfl
    · rw [hn]; rfl
  · intro r x y
    exact ⟨rfl, rfl⟩
  · exact ⟨storedRecord, ⟨some (.fin 200), some (.fin 500)⟩, 200,
      rfl, by norm_num⟩

/-- Witness for C10: patching the sample catalog stores an out-of-range
latitude and a null longitude with `manually_tagged = true`. -/
theorem c10_witness :
    update_image_gps ([] ++ storedRecord :: []) "a.jpg"
        ⟨some (.fin 200), none⟩ =
      some ([] ++ applyGpsPatch storedRecord ⟨some (.fin 200), none⟩ :: []) :=
  c10_patch_bypasses_gate.1 [] [] storedRecord "a.jpg"
    ⟨some (.fin 200), none⟩ (by simp) rfl

/-! ## C9: thumbnail size bounds -/

/-- Bounds for PIL's rounding: for a positive target value `q` at most
`B`, the rounded dimension is between 1 and `B` and within 1 of `q`,
whichever of floor/ceiling the key selects. -/
lemma round_aspect_bounds (q : ℚ) (key : ℤ → ℚ) (B : ℤ)
    (hq : 0 < q) (hqB : q ≤ (B : ℚ)) :
    1 ≤ round_aspect q key ∧ round_aspect q key ≤ B ∧
      |(round_aspect q key : ℚ) - q| < 1 := by
  have hfl : (⌊q⌋ : ℚ) ≤ q := Int.floor_le q
  have hfu : q < ⌊q⌋ + 1 := Int.lt_floor_add_one q
  have hcl : q ≤ (⌈q⌉ : ℚ) := Int.le_ceil q
  have hcu : (⌈q⌉ : ℚ) < q + 1 := Int.ceil_lt_add_one q
  have hceilB : ⌈q⌉ ≤ B := Int.ceil_le.mpr hqB
  have hfloorB : ⌊q⌋ ≤ B := le_trans (Int.floor_le_ceil q) hceilB
  have hBZ : (0 : ℤ) < B := by exact_mod_cast lt_of_lt_of_le hq hqB
  have h1B : (1 : ℤ) ≤ B := hBZ
  have hceil1 : (1 : ℤ) ≤ ⌈q⌉ := by
    have : (0 : ℚ) < (⌈q⌉ : ℚ) := lt_of_lt_of_le hq hcl
    exact_mod_cast this
  unfold round_aspect
  refine ⟨le_max_right _ _, ?_, ?_⟩
  · apply max_le _ h1B
    split_ifs
    · exact hfloorB
    · exact hceilB
  · rcases le_or_lt 1 (if key ⌊q⌋ ≤ key ⌈q⌉ then ⌊q⌋ else ⌈q⌉) with h1 | h1
    · rw [max_eq_left h1]
      split_ifs
      · rw [abs_lt]; constructor <;> linarith
      · rw [abs_lt]; constructor <;> linarith
    · rw [max_eq_right (le_of_lt h1)]
      have hq1 : q < 1 := by
        split_ifs at h1 with hk
        · have hf0 : ⌊q⌋ ≤ 0 := by omega
          have : (⌊q⌋ : ℚ) ≤ 0 := by exact_mod_cast hf0
          linarith
        · exact absurd h1 (not_lt.mpr hceil1)
      rw [abs_lt]
      constructor <;> push_cast <;> linarith

/-- C9: for every positive source size, the thumbnail size computed for
the fixed `(400, 400)` bound never exceeds 400 in either dimension, never
exceeds the source in either dimension (no upscaling; a source fitting
within 400x400 is kept as is), and preserves the aspect: either the
source is unchanged, or one dimension is pinned to 400 and the other is
within one pixel of the exact aspect-preserving value. -/
theorem c9_thumbnail_size_bounds (w h : ℕ) (hw : 0 < w) (hh : 0 < h) :
    (generate_thumbnail_size w h).1 ≤ 400 ∧
    (generate_thumbnail_size w h).2 ≤ 400 ∧
    (generate_thumbnail_size w h).1 ≤ w ∧
    (generate_thumbnail_size w h).2 ≤ h ∧
    (w ≤ 400 ∧ h ≤ 400 → generate_thumbnail_size w h = (w, h)) ∧
    (generate_thumbnail_size w h = (w, h) ∨
      ((generate_thumbnail_size w h).2 = 400 ∧
        |((generate_thumbnail_size w h).1 : ℚ) - 400 * w / h| < 1) ∨
      ((generate_thumbnail_size w h).1 = 400 ∧
        |((generate_thumbnail_size w h).2 : ℚ) - 400 * h / w| < 1)) := by
  have hw0 : (0 : ℚ) < (w : ℚ) := by exact_mod_cast hw
  have hh0 : (0 : ℚ) < (h : ℚ) := by exact_mod_cast hh
  rw [generate_thumbnail_size, thumbnail_fit]
  by_cases hfit : (400 : ℤ) ≥ (w : ℤ) ∧ (400 : ℤ) ≥ (h : ℤ)
  · rw [if_pos hfit]
    have hw4 : w ≤ 400 := by exact_mod_cast hfit.1
    have hh4 : h ≤ 400 := by exact_mod_cast hfit.2
    exact ⟨hw4, hh4, le_refl w, le_refl h, fun _ => rfl, Or.inl rfl⟩
  · rw [if_neg hfit]
    by_cases hbr : ((400 : ℤ) : ℚ) / ((400 : ℤ) : ℚ) ≥ (w : ℚ) / (h : ℚ)
    · rw [if_pos hbr]
      have ha1 : (w : ℚ) / (h : ℚ) ≤ 1 := by
        have h44 : ((400 : ℤ) : ℚ) / ((400 : ℤ) : ℚ) = 1 := by norm_num
        rw [h44] at hbr; exact hbr
      have hwh : (w : ℚ) ≤ (h : ℚ) := (div_le_one hh0).mp ha1
      have hh400 : 400 < h := by
        by_contra hcon
        push_neg at hcon
        have hwn : w ≤ h := by exact_mod_cast hwh
        exact hfit ⟨by exact_mod_cast le_trans hwn hcon, by exact_mod_cast hcon⟩
      have haq : (0 : ℚ) < (w : ℚ) / (h : ℚ) := div_pos hw0 hh0
      have hqpos : 0 < ((400 : ℤ) : ℚ) * ((w : ℚ) / (h : ℚ)) := by
        apply mul_pos _ haq; norm_num
      have hq400 : ((400 : ℤ) : ℚ) * ((w : ℚ) / (h : ℚ)) ≤ ((400 : ℤ) : ℚ) := by
        push_cast
        nlinarith
      have hqw : ((400 : ℤ) : ℚ) * ((w : ℚ) / (h : ℚ)) ≤ ((w : ℤ) : ℚ) := by
        push_cast
        rw [mul_div_assoc', div_le_iff₀ hh0]
        have h400h : (400 : ℚ) ≤ (h : ℚ) := by exact_mod_cast le_of_lt hh400
        nlinarith
      obtain ⟨hx1, hxB, hxq⟩ := round_aspect_bounds _
        (fun n => |(w : ℚ) / (h : ℚ) - (n : ℚ) / ((400 : ℤ) : ℚ)|) 400
        hqpos hq400
      obtain ⟨hx1w, hxw, hxqw⟩ := round_aspect_bounds _
        (fun n => |(w : ℚ) / (h : ℚ) - (n : ℚ) / ((400 : ℤ) : ℚ)|) (w : ℤ)
        hqpos hqw
      dsimp only
      set x := round_aspect (((400 : ℤ) : ℚ) * ((w : ℚ) / (h : ℚ)))
        (fun n => |(w : ℚ) / (h : ℚ) - (n : ℚ) / ((400 : ℤ) : ℚ)|) with hxdef
      have hxcast : ((x.toNat : ℤ) : ℚ) = (x : ℚ) := by
        rw [Int.toNat_of_nonneg (le_trans (by norm_num) hx1)]
      refine ⟨?_, ?_, ?_, ?_, ?_, ?_⟩
      · exact Int.toNat_le.mpr (by exact_mod_cast hxB)
      · norm_num
      · exact Int.toNat_le.mpr hxw
      · show (400 : ℤ).toNat ≤ h
        norm_num
        exact le_of_lt hh400
      · intro hc
        exact absurd ⟨by exact_mod_cast hc.1, by exact_mod_cast hc.2⟩ hfit
      · refine Or.inr (Or.inl ⟨by decide, ?_⟩)
        have hqeq : ((400 : ℤ) : ℚ) * ((w : ℚ) / (h : ℚ)) =
            400 * (w : ℚ) / (h : ℚ) := by push_cast; ring
        have : ((x.toNat : ℕ) : ℚ) = (x : ℚ) := by exact_mod_cast hxcast
        rw [this, ← hqeq]
        exact hxq
    · rw [if_neg hbr]
      push_neg at hbr
      have ha1 : 1 < (w : ℚ) / (h : ℚ) := by
        have h44 : ((400 : ℤ) : ℚ) / ((400 : ℤ) : ℚ) = 1 := by norm_num
        rw [h44] at hbr; exact hbr
      have hhw : (h : ℚ) < (w : ℚ) := by
        have := (one_lt_div hh0).mp ha1
        exact this
      have hw400 : 400 < w := by
        by_contra hcon
        push_neg at hcon
        have hhn : h ≤ w := by exact_mod_cast le_of_lt hhw
        exact hfit ⟨by exact_mod_cast hcon, by exact_mod_cast le_trans hhn hcon⟩
      have haq : (0 : ℚ) < (w : ℚ) / (h : ℚ) := div_pos hw0 hh0
      have hqpos : 0 < ((400 : ℤ) : ℚ) / ((w : ℚ) / (h : ℚ)) := by
        apply div_pos _ haq; norm_num
      have hqeq : ((400 : ℤ) : ℚ) / ((w : ℚ) / (h : ℚ)) =
          400 * (h : ℚ) / (w : ℚ) := by
        push_cast
        rw [div_div_eq_mul_div]
      have hq400 : ((400 : ℤ) : ℚ) / ((w : ℚ) / (h : ℚ)) ≤ ((400 : ℤ) : ℚ) := by
        apply div_le_self _ (le_of_lt ha1)
        norm_num
      have hqh : ((400 : ℤ) : ℚ) / ((w : ℚ) / (h : ℚ)) ≤ ((h : ℤ) : ℚ) := by
        rw [hqeq]
        push_cast
        rw [div_le_iff₀ hw0]
        have h400w : (400 : ℚ) ≤ (w : ℚ) := by exact_mod_cast le_of_lt hw400
        nlinarith
      obtain ⟨hy1, hyB, hyq⟩ := round_aspect_bounds _
        (fun n => if n = 0 then 0
          else |(w : ℚ) / (h : ℚ) - ((400 : ℤ) : ℚ) / (n : ℚ)|) 400
        hqpos hq400
      obtain ⟨hy1h, hyh, hyqh⟩ := round_aspect_bounds _
        (fun n => if n = 0 then 0
          else |(w : ℚ) / (h : ℚ) - ((400 : ℤ) : ℚ) / (n : ℚ)|) (h : ℤ)
        hqpos hqh
      dsimp only
      set y := round_aspect (((400 : ℤ) : ℚ) / ((w : ℚ) / (h : ℚ)))
        (fun n => if n = 0 then 0
          else |(w : ℚ) / (h : ℚ) - ((400 : ℤ) : ℚ) / (n : ℚ)|) with hydef
      have hycast : ((y.toNat : ℤ) : ℚ) = (y : ℚ) := by
        rw [Int.toNat_of_nonneg (le_trans (by norm_num) hy1)]
      refine ⟨?_, ?_, ?_, ?_, ?_, ?_⟩
      · norm_num
      · exact Int.toNat_le.mpr (by exact_mod_cast hyB)
      · show (400 : ℤ).toNat ≤ w
        norm_num
        exact le_of_lt hw400
      · exact Int.toNat_le.mpr hyh
      · intro hc
        exact absurd ⟨by exact_mod_cast hc.1, by exact_mod_cast hc.2⟩ hfit
      · refine Or.inr (Or.inr ⟨by decide, ?_⟩)
        have : ((y.toNat : ℕ) : ℚ) = (y : ℚ) := by exact_mod_cast hycast
        rw [this, ← hqeq]
        exact hyq

/-- Witness for C9: an 800x600 source becomes a 400x300 thumbnail. -/
theorem c9_witness :
    (generate_thumbnail_size 800 600).1 ≤ 400 ∧
    (generate_thumbnail_size 800 600).2 ≤ 400 ∧
    (generate_thumbnail_size 800 600).1 ≤ 800 ∧
    (generate_thumbnail_size 800 600).2 ≤ 600 ∧
    (800 ≤ 400 ∧ 600 ≤ 400 → generate_thumbnail_size 800 600 = (800, 600)) ∧
    (generate_thumbnail_size 800 600 = (800, 600) ∨
      ((generate_thumbnail_size 800 600).2 = 400 ∧
        |((generate_thumbnail_size 800 600).1 : ℚ) - 400 * 800 / 600| < 1) ∨
      ((generate_thumbnail_size 800 600).1 = 400 ∧
        |((generate_thumbnail_size 800 600).2 : ℚ) - 400 * 600 / 800| < 1)) := by
  have := c9_thumbnail_size_bounds 800 600 (by decide) (by decide)
  exact_mod_cast this

end MarineMap
